import Mathlib

/-!
Verification of the intra-cluster streaming transport of baron-chain/aistore.

The repository snapshot contains `transport/client_nethttp.go` (the stream's
HTTP `do` round-trip and client construction) together with the transport
test-suite; the stream core itself (frame codec, send queue, session state
machine) is exercised by those tests but its source file is not present, so
those parts are modelled from the specification (each such definition is
marked `Modelled from the spec:`).  `streamBase.do` is embedded directly from
the Go source.
-/

namespace Transport

/-- Big-endian fixed-width encoding of a natural number: `beBytes w n` is the
`w`-byte big-endian representation of `n` (most significant byte first),
truncating above `256 ^ w`. -/
def beBytes : Nat → Nat → List Nat
  | 0, _ => []
  | w + 1, n => beBytes w (n / 256) ++ [n % 256]

/-- Value of a big-endian byte sequence. -/
def beVal (bs : List Nat) : Nat := bs.foldl (fun a b => a * 256 + b) 0

/-- Object attributes carried by a transport header.  Modelled from the spec:
"object attributes (size in bytes, timestamps, checksum descriptor)"; the
spec's invariant `size >= 0` lets size (and the timestamp) be a `Nat`, and the
checksum descriptor and identity fields are raw byte sequences. -/
structure ObjAttrs where
  size : Nat
  atime : Nat
  cksumType : List Nat
  cksumValue : List Nat
deriving DecidableEq

/-- Transport header.  Modelled from the spec: "object identity
(bucket/namespace, name), object attributes ..., and an opaque variable-length
byte blob for caller-defined metadata".  The field `opq` embeds the Go
field `Opaque` (renamed because its lower-case form is a Lean keyword). -/
structure Header where
  bucket : List Nat
  objName : List Nat
  objAttrs : ObjAttrs
  opq : List Nat
deriving DecidableEq

/-- Length-prefixed byte blob: an 8-byte big-endian length followed by the
bytes themselves. -/
def lenPfx (bs : List Nat) : List Nat := beBytes 8 bs.length ++ bs

/-- Header body encoding.  Modelled from the spec: each identity field, the
checksum descriptor and the opaque blob are length-prefixed; the numeric
attributes are fixed-width big-endian integers. -/
def encodeHeader (h : Header) : List Nat :=
  lenPfx h.bucket ++ lenPfx h.objName ++
    beBytes 8 h.objAttrs.size ++ beBytes 8 h.objAttrs.atime ++
    lenPfx h.objAttrs.cksumType ++ lenPfx h.objAttrs.cksumValue ++ lenPfx h.opq

/-- Frame encoding of a header.  Modelled from the spec: "`encode(Header) ->
bytes` produces a length-prefixed byte sequence", "`length-prefix` is a
fixed-width big-endian integer giving the byte length of the encoded
header". -/
def encode (h : Header) : List Nat :=
  beBytes 8 (encodeHeader h).length ++ encodeHeader h

/-- Codec failures.  Modelled from the spec: "Decoding a prefix claiming a
length that exceeds the configured maximum, or a truncated buffer, is a fatal
framing error". -/
inductive CodecErr where
  | truncated
  | tooBig
deriving DecidableEq

/-- Read a `w`-byte big-endian integer, returning it with the remaining
bytes. -/
def readBe (w : Nat) (bs : List Nat) : Except CodecErr (Nat × List Nat) :=
  if bs.length < w then .error .truncated
  else .ok (beVal (bs.take w), bs.drop w)

/-- Read a length-prefixed blob, returning it with the remaining bytes. -/
def readBlob (bs : List Nat) : Except CodecErr (List Nat × List Nat) := do
  let (n, r) ← readBe 8 bs
  if r.length < n then throw .truncated
  else pure (r.take n, r.drop n)

/-- Decode a header body, returning the header and the unread remainder. -/
def decodeHeader (bs : List Nat) : Except CodecErr (Header × List Nat) := do
  let (bucket, r1) ← readBlob bs
  let (objName, r2) ← readBlob r1
  let (size, r3) ← readBe 8 r2
  let (atime, r4) ← readBe 8 r3
  let (ct, r5) ← readBlob r4
  let (cv, r6) ← readBlob r5
  let (opq, r7) ← readBlob r6
  pure (⟨bucket, objName, ⟨size, atime, ct, cv⟩, opq⟩, r7)

/-- Frame decoding.  Modelled from the spec: "`decode(bytes) -> (Header,
bytesConsumed)` is its exact inverse for any Header whose opaque blob and
identity fields fit within a configured maximum frame size"; a claimed length
above the maximum or a truncated buffer is a fatal framing error. -/
def decode (maxFrame : Nat) (bs : List Nat) : Except CodecErr (Header × Nat) := do
  let (hlen, r1) ← readBe 8 bs
  if maxFrame < hlen then throw .tooBig
  else if r1.length < hlen then throw .truncated
  else
    let (h, rem) ← decodeHeader (r1.take hlen)
    if rem.isEmpty then pure (h, 8 + hlen) else throw .truncated

/-- Wellformedness of a header for the fixed-width codec: every
length-prefixed field and numeric attribute fits in the 8-byte big-endian
width. -/
def Header.wf (h : Header) : Prop :=
  h.bucket.length < 256 ^ 8 ∧ h.objName.length < 256 ^ 8 ∧
    h.objAttrs.size < 256 ^ 8 ∧ h.objAttrs.atime < 256 ^ 8 ∧
    h.objAttrs.cksumType.length < 256 ^ 8 ∧ h.objAttrs.cksumValue.length < 256 ^ 8 ∧
    h.opq.length < 256 ^ 8

instance (h : Header) : Decidable h.wf := by
  unfold Header.wf
  infer_instance

/-- Concrete header used by the codec witness: non-empty identity fields,
non-zero size, empty opaque blob. -/
def hdr0 : Header := ⟨[98, 49], [111, 46, 106], ⟨5, 7, [120], [97, 98]⟩, []⟩

/-- Header key `cmn.HdrCompress`.  The `cmn` constants are declared outside
the snapshot; only the keys' distinct identities matter here. -/
def HdrCompress : String := "ais-compress"

/-- Header key `cmn.HdrSessID`. -/
def HdrSessID : String := "ais-session-id"

/-- Marker value `cmn.LZ4Compression` (block-compressed). -/
def LZ4Compression : String := "lz4"

/-- Go `http.Header.Set`: replace any existing entries for the key with the
single given value. -/
def headerSet (hs : List (String × String)) (k v : String) : List (String × String) :=
  hs.filter (fun p => p.1 ≠ k) ++ [(k, v)]

/-- Go `http.Header.Get`: the value stored for the key, if any. -/
def headerGet (hs : List (String × String)) (k : String) : Option String :=
  (hs.find? (fun p => p.1 = k)).map (fun p => p.2)

/-- An HTTP request as built inside `streamBase.do`: method, destination URL
and header map (`http.NewRequest(http.MethodPut, s.dstURL, body)` followed by
`request.Header.Set` calls). -/
structure Request where
  method : String
  url : String
  header : List (String × String)
deriving DecidableEq

/-- The fields of the Go `streamBase` that `do` reads: `s.dstURL`, `s.sessID`
and the session-wide compression toggle `s.streamer.compressed()`. -/
structure streamBase where
  dstURL : String
  sessID : Int
  compressed : Bool
deriving DecidableEq

/-- Outcomes of the two fallible external calls inside `streamBase.do`:
`http.NewRequest` and `s.client.Do` (an I/O error, or success). -/
structure DoEnv where
  newRequestErr : Option String
  clientErr : Option String
deriving DecidableEq

/-- Observable result of one `streamBase.do` call: the returned error, the
request handed to `s.client.Do` (none if request construction failed), and
whether the response body was drained, the response body was closed, and
`s.streamer.resetCompression()` ran. -/
structure DoResult where
  err : Option String
  sentRequest : Option Request
  bodyDrained : Bool
  bodyClosed : Bool
  compressionWasReset : Bool
deriving DecidableEq

/-- Shallow embedding of `streamBase.do` (src/transport/client_nethttp.go:52-78):
build a PUT request to `s.dstURL`; if the streamer compresses, set the
`HdrCompress` header to `LZ4Compression`; set `HdrSessID` to the decimal
session id; run the client; on client error return it; otherwise drain and
close the response body and, if compressing, reset the compression state.
(`do` is a Lean keyword, hence the name `doRun`.) -/
def streamBase.doRun (s : streamBase) (env : DoEnv) : DoResult :=
  match env.newRequestErr with
  | some e => ⟨some e, none, false, false, false⟩
  | none =>
    let req0 : Request := ⟨"PUT", s.dstURL, []⟩
    let req1 := if s.compressed then
        { req0 with header := headerSet req0.header HdrCompress LZ4Compression }
      else req0
    let req2 := { req1 with header := headerSet req1.header HdrSessID (toString s.sessID) }
    match env.clientErr with
    | some e => ⟨some e, some req2, false, false, false⟩
    | none => ⟨none, some req2, true, true, s.compressed⟩

/-- Session lifecycle states.  Modelled from the spec: "States: Idle (no
connection yet) → Active (sender loop writing frames) → Draining (post-Fin)
→ Closed (terminal, success) ; Aborted (terminal, post-Stop or fatal I/O
error)". -/
inductive SessionState where
  | idle
  | active
  | draining
  | closed
  | aborted
deriving DecidableEq

/-- Completion status delivered to a Send Request's callback.  Modelled from
the spec's error taxonomy: success, a transport I/O error (tagged with the
identity of the underlying error so "the same error" is expressible), or the
distinguished cancellation error of `Stop` — "not conflated with I/O
errors". -/
inductive CbStatus where
  | ok
  | ioErr (e : Nat)
  | cancelled
deriving DecidableEq

/-- Stream statistics counters.  Modelled from the spec: "monotonically
non-decreasing counters (bytes sent, compressed bytes sent, object count)". -/
structure Stats where
  size : Nat
  compressedSize : Nat
  num : Nat
deriving DecidableEq

/-- Pointwise order on stats snapshots. -/
def Stats.le (a b : Stats) : Prop :=
  a.size ≤ b.size ∧ a.compressedSize ≤ b.compressedSize ∧ a.num ≤ b.num

instance (a b : Stats) : Decidable (Stats.le a b) := by
  unfold Stats.le
  infer_instance

/-- One Send Request as tracked by the model: its identifier (issued in
program order by the Session) and its declared payload size. -/
structure SendReq where
  id : Nat
  size : Nat
deriving DecidableEq

/-- Session state.  Modelled from the spec: the lifecycle state, the bounded
FIFO send queue, the log of callback invocations in firing order, the
program-order id counter, the configured burst depth, the stored terminal
status, and the stats counters. -/
structure Session where
  state : SessionState
  queue : List SendReq
  fired : List (Nat × CbStatus)
  nextId : Nat
  burst : Nat
  termErr : Option CbStatus
  stats : Stats
deriving DecidableEq

/-- Outcome of one `Send` call: enqueued, rejected with a terminal-state
error, or blocked because the queue is at burst capacity. -/
inductive SendOutcome where
  | enqueued
  | rejected
  | wouldBlock
deriving DecidableEq

/-- Modelled from the spec: `Send` "enqueues a Send Request.  Blocks the
caller only when the queue is at burst capacity ...  Returns an error
immediately, without blocking, if the Session is already in a terminal state
(Draining-refusing-new-work, Closed, or Aborted)"; a Session is created on
first `Send` (Idle → Active). -/
def Session.send (s : Session) (sz : Nat) : SendOutcome × Session :=
  match s.state with
  | .draining | .closed | .aborted => (.rejected, s)
  | _ =>
    if s.queue.length < s.burst then
      (.enqueued, { s with state := .active,
                           queue := s.queue ++ [⟨s.nextId, sz⟩],
                           nextId := s.nextId + 1 })
    else (.wouldBlock, s)

/-- Modelled from the spec: "The queue is drained by exactly one dedicated
sender loop per Session"; a successful write of the head request fires its
callback with success and advances the counters (`compLen` is the compressed
byte count actually written for this frame); in Draining, the Session closes
once the queue empties. -/
def Session.drainOk (s : Session) (compLen : Nat) : Session :=
  match s.state, s.queue with
  | .active, r :: rest =>
    { s with queue := rest,
             fired := s.fired ++ [(r.id, CbStatus.ok)],
             stats := ⟨s.stats.size + r.size, s.stats.compressedSize + compLen,
                       s.stats.num + 1⟩ }
  | .draining, r :: rest =>
    { s with queue := rest,
             state := if rest.isEmpty then .closed else .draining,
             fired := s.fired ++ [(r.id, CbStatus.ok)],
             stats := ⟨s.stats.size + r.size, s.stats.compressedSize + compLen,
                       s.stats.num + 1⟩ }
  | _, _ => s

/-- Modelled from the spec: "I/O failure during a write: the sender loop
marks the Session Aborted, fails the in-progress Send Request's callback with
the underlying error, and fails every still-queued Send Request the same way
(fail-fast: no partial silent drops)".  The head of the queue is the
in-progress request; `e` identifies the underlying I/O error. -/
def Session.drainErr (s : Session) (e : Nat) : Session :=
  match s.state, s.queue with
  | .active, r :: rest =>
    { s with state := .aborted, queue := [],
             fired := s.fired ++ (r :: rest).map (fun q => (q.id, CbStatus.ioErr e)),
             termErr := some (CbStatus.ioErr e) }
  | .draining, r :: rest =>
    { s with state := .aborted, queue := [],
             fired := s.fired ++ (r :: rest).map (fun q => (q.id, CbStatus.ioErr e)),
             termErr := some (CbStatus.ioErr e) }
  | _, _ => s

/-- Modelled from the spec: "`Stop()`: transitions any non-terminal state →
Aborted immediately ...; every still-queued and in-flight Send Request's
callback is invoked exactly once with a cancellation error ...  Idempotent";
on an already-terminal Session it returns the stored terminal status and
changes nothing.  The first component is the status `Stop` reports. -/
def Session.stop (s : Session) : Option CbStatus × Session :=
  match s.state with
  | .closed | .aborted => (s.termErr, s)
  | _ =>
    (some CbStatus.cancelled,
      { s with state := .aborted, queue := [],
               fired := s.fired ++ s.queue.map (fun q => (q.id, CbStatus.cancelled)),
               termErr := some CbStatus.cancelled })

/-- Modelled from the spec: "`Fin()`: transitions Active→Draining, blocks the
caller until the queue empties ..., then Closed.  Idempotent: calling `Fin`
on an already-Closed/Aborted Session returns immediately (with the stored
terminal error, if any)."  In the step model `fin` performs the transition;
the drain itself is the sender loop's subsequent `drainOk` steps. -/
def Session.fin (s : Session) : Option CbStatus × Session :=
  match s.state with
  | .closed | .aborted => (s.termErr, s)
  | _ =>
    if s.queue.isEmpty then (s.termErr, { s with state := .closed })
    else (s.termErr, { s with state := .draining })

/-- One event in a Session's life: a caller `Send` (with the declared size),
a successful sender-loop write (with the compressed length written), a failed
write (with the error identity), `Fin`, or `Stop`. -/
inductive Op where
  | send (sz : Nat)
  | drainOk (compLen : Nat)
  | drainErr (e : Nat)
  | fin
  | stop
deriving DecidableEq

/-- Apply one event to a Session. -/
def Session.step (s : Session) : Op → Session
  | .send sz => (s.send sz).2
  | .drainOk c => s.drainOk c
  | .drainErr e => s.drainErr e
  | .fin => s.fin.2
  | .stop => s.stop.2

/-- Run a sequence of events. -/
def Session.run (s : Session) (ops : List Op) : Session :=
  ops.foldl Session.step s

/-- Fresh Session with the given burst depth.  Modelled from the spec: "a
Session is created on first `Send`/explicit open". -/
def Session.init (burst : Nat) : Session :=
  ⟨.idle, [], [], 0, burst, none, ⟨0, 0, 0⟩⟩

/-- Ids whose callbacks have fired, in firing order. -/
def Session.cbIds (s : Session) : List Nat := s.fired.map Prod.fst

/-- Ids still queued, in FIFO order. -/
def Session.queueIds (s : Session) : List Nat := s.queue.map SendReq.id

/-- The ledger: every id the Session has handled, callbacks first (in firing
order) then the still-queued ids (in FIFO order). -/
def Session.ledger (s : Session) : List Nat := s.cbIds ++ s.queueIds

/-- Ids of the headers the receiver-side handler observes, in observation
order.  Modelled from the spec: frames on one connection are strictly ordered
and the receiver handler observes headers in the order frames are written, so
the observation order is the order of successful sender-loop writes. -/
def Session.observed (s : Session) : List Nat :=
  (s.fired.filter (fun p => p.2 == CbStatus.ok)).map Prod.fst

/-- Structural invariant of the model: the ledger is strictly increasing and
contains exactly the ids issued so far, and a terminal Session has an empty
queue. -/
def Session.inv (s : Session) : Prop :=
  List.Pairwise (· < ·) s.ledger ∧
    (∀ i, i ∈ s.ledger ↔ i < s.nextId) ∧
    ((s.state = .closed ∨ s.state = .aborted) → s.queue = [])

/-! ## Theorems -/

theorem length_beBytes (w n : Nat) : (beBytes w n).length = w := by
  induction w generalizing n with
  | zero => rfl
  | succ w ih => simp [beBytes, ih]

theorem beVal_foldl (bs : List Nat) (a : Nat) :
    bs.foldl (fun a b => a * 256 + b) a = a * 256 ^ bs.length + beVal bs := by
  induction bs generalizing a with
  | nil => simp [beVal]
  | cons x xs ih =>
    have hx : beVal (x :: xs) = x * 256 ^ xs.length + beVal xs := by
      show List.foldl _ _ _ = _
      rw [List.foldl_cons, ih (0 * 256 + x)]
      ring
    rw [List.foldl_cons, ih (a * 256 + x), hx, List.length_cons]
    ring

theorem beVal_append (xs ys : List Nat) :
    beVal (xs ++ ys) = beVal xs * 256 ^ ys.length + beVal ys := by
  simp only [beVal, List.foldl_append]
  rw [beVal_foldl ys (List.foldl (fun a b => a * 256 + b) 0 xs)]
  rfl

theorem beVal_beBytes {w n : Nat} (h : n < 256 ^ w) : beVal (beBytes w n) = n := by
  induction w generalizing n with
  | zero =>
    interval_cases n
    rfl
  | succ w ih =>
    have hdiv : n / 256 < 256 ^ w := by
      rw [Nat.div_lt_iff_lt_mul (by norm_num)]
      calc n < 256 ^ (w + 1) := h
        _ = 256 ^ w * 256 := by ring
    simp only [beBytes, beVal_append, ih hdiv]
    have : beVal [n % 256] = n % 256 := by simp [beVal]
    rw [this]
    simp only [List.length_singleton, pow_one]
    omega

theorem ok_bind {A B : Type} (a : A) (f : A → Except CodecErr B) :
    (Except.ok a >>= f) = f a := rfl

theorem readBe_beBytes {w n : Nat} (h : n < 256 ^ w) (rest : List Nat) :
    readBe w (beBytes w n ++ rest) = .ok (n, rest) := by
  have hlen : (beBytes w n).length = w := length_beBytes w n
  simp only [readBe, List.length_append, hlen]
  rw [if_neg (by omega)]
  rw [List.take_append_of_le_length (by omega), List.drop_append_of_le_length (by omega)]
  rw [List.take_of_length_le (by omega), List.drop_eq_nil_of_le (by omega)]
  simp [beVal_beBytes h]

theorem readBlob_lenPfx {xs : List Nat} (h : xs.length < 256 ^ 8) (rest : List Nat) :
    readBlob (lenPfx xs ++ rest) = .ok (xs, rest) := by
  simp only [readBlob, lenPfx, List.append_assoc]
  rw [readBe_beBytes h]
  simp only [ok_bind, List.length_append]
  rw [if_neg (by omega)]
  rw [List.take_append_of_le_length (by omega), List.drop_append_of_le_length (by omega)]
  rw [List.take_of_length_le (by omega), List.drop_eq_nil_of_le (by omega)]
  rfl

theorem decodeHeader_encodeHeader {h : Header} (hwf : h.wf) :
    decodeHeader (encodeHeader h) = .ok (h, []) := by
  obtain ⟨h1, h2, h3, h4, h5, h6, h7⟩ := hwf
  simp only [decodeHeader, encodeHeader, List.append_assoc]
  rw [readBlob_lenPfx h1]
  simp only [ok_bind]
  rw [readBlob_lenPfx h2]
  simp only [ok_bind]
  rw [readBe_beBytes h3]
  simp only [ok_bind]
  rw [readBe_beBytes h4]
  simp only [ok_bind]
  rw [readBlob_lenPfx h5]
  simp only [ok_bind]
  rw [readBlob_lenPfx h6]
  simp only [ok_bind]
  rw [show lenPfx h.opq = lenPfx h.opq ++ [] by simp]
  rw [readBlob_lenPfx h7]
  simp

theorem pure_eq_ok {A : Type} (a : A) : (pure a : Except CodecErr A) = .ok a := rfl

set_option maxHeartbeats 1000000 in
/-- C3: for every Header whose opaque blob and identity fields fit within the
configured maximum frame size — empty or maximum-size opaque, zero-size or
non-zero-size objects — decoding the encoding returns the original header,
and decoding consumes exactly the bytes encode produced (any trailing bytes
are untouched). -/
theorem decode_encode_roundtrip (maxFrame : Nat) (h : Header) (extra : List Nat)
    (hwf : h.wf) (hfit : (encodeHeader h).length ≤ maxFrame) (hmax : maxFrame < 256 ^ 8) :
    decode maxFrame (encode h ++ extra) = .ok (h, (encode h).length) := by
  have hL : (encodeHeader h).length < 256 ^ 8 := lt_of_le_of_lt hfit hmax
  simp only [decode, encode, List.append_assoc]
  rw [readBe_beBytes hL]
  simp only [ok_bind]
  rw [if_neg (by omega)]
  rw [if_neg (by simp only [List.length_append]; omega)]
  rw [List.take_append_of_le_length (le_refl _), List.take_of_length_le (le_refl _)]
  rw [decodeHeader_encodeHeader hwf]
  simp only [ok_bind, List.isEmpty_nil, if_true, pure_eq_ok]
  simp [List.length_append, length_beBytes]

/-- Witness for C3: the round-trip theorem applied at a concrete header, a
concrete maximum frame size, and concrete trailing bytes. -/
theorem decode_encode_roundtrip_witness :
    hdr0.wf ∧ (encodeHeader hdr0).length ≤ 4096 ∧ 4096 < 256 ^ 8 ∧
      decode 4096 (encode hdr0 ++ [9, 9]) = .ok (hdr0, (encode hdr0).length) :=
  ⟨by decide, by decide, by decide,
    decode_encode_roundtrip 4096 hdr0 [9, 9] (by decide) (by decide) (by decide)⟩

/-- C4: every request a stream's `do` hands to the client carries the
session-identifier header, and the compression indicator header is present
(with the block-compression marker value) exactly when compression is enabled
for the session. -/
theorem do_protocol_headers (s : streamBase) (env : DoEnv) (req : Request)
    (hreq : (s.doRun env).sentRequest = some req) :
    headerGet req.header HdrSessID = some (toString s.sessID) ∧
      headerGet req.header HdrCompress =
        (if s.compressed then some LZ4Compression else none) := by
  cases henv : env.newRequestErr with
  | some e =>
    simp [streamBase.doRun, henv] at hreq
  | none =>
    cases hcl : env.clientErr with
    | some e =>
      simp only [streamBase.doRun, henv, hcl] at hreq
      obtain rfl := Option.some.inj hreq.symm
      cases hc : s.compressed <;>
        simp [headerGet, headerSet, hc, HdrCompress, HdrSessID]
    | none =>
      simp only [streamBase.doRun, henv, hcl] at hreq
      obtain rfl := Option.some.inj hreq.symm
      cases hc : s.compressed <;>
        simp [headerGet, headerSet, hc, HdrCompress, HdrSessID]

/-- Witness for C4: a compressing stream with session id 5 sends both
headers. -/
theorem do_protocol_headers_witness :
    headerGet [(HdrCompress, LZ4Compression), (HdrSessID, "5")] HdrSessID =
        some (toString (5 : Int)) ∧
      headerGet [(HdrCompress, LZ4Compression), (HdrSessID, "5")] HdrCompress =
        (if true then some LZ4Compression else none) :=
  do_protocol_headers ⟨"http://target/v1/np/10G", 5, true⟩ ⟨none, none⟩
    ⟨"PUT", "http://target/v1/np/10G", [(HdrCompress, LZ4Compression), (HdrSessID, "5")]⟩
    (by decide)

/-- C10: when `streamBase.do` returns nil the response body has been drained
and closed and the compression state has been reset exactly when compression
is enabled; when request construction or the client round-trip fails, `do`
returns that error and never resets the compression state. -/
theorem do_success_drains_resets (s : streamBase) (env : DoEnv) :
    ((s.doRun env).err = none →
        (s.doRun env).bodyDrained = true ∧ (s.doRun env).bodyClosed = true ∧
          (s.doRun env).compressionWasReset = s.compressed) ∧
      (∀ e, (s.doRun env).err = some e →
        (s.doRun env).compressionWasReset = false ∧
          (env.newRequestErr = some e ∨ env.clientErr = some e)) := by
  cases henv : env.newRequestErr with
  | some e => simp [streamBase.doRun, henv]
  | none =>
    cases hcl : env.clientErr with
    | some e => simp [streamBase.doRun, henv, hcl]
    | none => simp [streamBase.doRun, henv, hcl]

/-- Witness for C10: a successful round-trip on a compressing stream drains
and closes the body and resets compression. -/
theorem do_success_drains_resets_witness :
    (streamBase.doRun ⟨"u", 7, true⟩ ⟨none, none⟩).bodyDrained = true ∧
      (streamBase.doRun ⟨"u", 7, true⟩ ⟨none, none⟩).bodyClosed = true ∧
      (streamBase.doRun ⟨"u", 7, true⟩ ⟨none, none⟩).compressionWasReset = true :=
  (do_success_drains_resets ⟨"u", 7, true⟩ ⟨none, none⟩).1 (by decide)

theorem inv_of_ledger_eq (s t : Session) (hL : t.ledger = s.ledger)
    (hn : t.nextId = s.nextId)
    (hq : (t.state = SessionState.closed ∨ t.state = SessionState.aborted) → t.queue = [])
    (h : s.inv) : t.inv := by
  obtain ⟨h1, h2, h3⟩ := h
  refine ⟨hL ▸ h1, ?_, hq⟩
  intro i
  rw [hL, hn]
  exact h2 i

theorem inv_extend (s t : Session) (hL : t.ledger = s.ledger ++ [s.nextId])
    (hn : t.nextId = s.nextId + 1)
    (hq : (t.state = SessionState.closed ∨ t.state = SessionState.aborted) → t.queue = [])
    (h : s.inv) : t.inv := by
  obtain ⟨h1, h2, h3⟩ := h
  refine ⟨?_, ?_, hq⟩
  · rw [hL]
    refine List.pairwise_append.mpr ⟨h1, List.pairwise_singleton _ _, ?_⟩
    intro a ha b hb
    have ha2 : a < s.nextId := (h2 a).mp ha
    have hb2 : b = s.nextId := by simpa using hb
    omega
  · intro i
    rw [hL, hn, List.mem_append]
    simp only [List.mem_singleton]
    constructor
    · rintro (hi | rfl)
      · have := (h2 i).mp hi
        omega
      · omega
    · intro hi
      by_cases hlt : i < s.nextId
      · exact Or.inl ((h2 i).mpr hlt)
      · exact Or.inr (by omega)

theorem step_ledger (s : Session) (op : Op) :
    ((Session.step s op).ledger = s.ledger ∧ (Session.step s op).nextId = s.nextId) ∨
      ((Session.step s op).ledger = s.ledger ++ [s.nextId] ∧
        (Session.step s op).nextId = s.nextId + 1) := by
  obtain ⟨st, q, f, n, b, te, sts⟩ := s
  cases op with
  | send sz =>
    cases st with
    | idle =>
      by_cases hlen : q.length < b
      · right
        constructor <;>
          simp [Session.step, Session.send, hlen, Session.ledger, Session.cbIds,
            Session.queueIds, List.append_assoc]
      · left
        constructor <;> simp [Session.step, Session.send, hlen]
    | active =>
      by_cases hlen : q.length < b
      · right
        constructor <;>
          simp [Session.step, Session.send, hlen, Session.ledger, Session.cbIds,
            Session.queueIds, List.append_assoc]
      · left
        constructor <;> simp [Session.step, Session.send, hlen]
    | draining =>
      left
      constructor <;> simp [Session.step, Session.send]
    | closed =>
      left
      constructor <;> simp [Session.step, Session.send]
    | aborted =>
      left
      constructor <;> simp [Session.step, Session.send]
  | drainOk c =>
    left
    cases st <;> cases q <;>
      constructor <;>
        simp [Session.step, Session.drainOk, Session.ledger, Session.cbIds,
          Session.queueIds, List.append_assoc]
  | drainErr e =>
    left
    cases st <;> cases q <;>
      constructor <;>
        simp [Session.step, Session.drainErr, Session.ledger, Session.cbIds,
          Session.queueIds, List.map_map, Function.comp, List.append_assoc]
  | fin =>
    left
    cases st <;> by_cases hq : q.isEmpty <;>
      constructor <;>
        simp [Session.step, Session.fin, hq, Session.ledger, Session.cbIds,
          Session.queueIds]
  | stop =>
    left
    cases st <;>
      constructor <;>
        simp [Session.step, Session.stop, Session.ledger, Session.cbIds,
          Session.queueIds, List.map_map, Function.comp]

theorem step_terminal_queue (s : Session) (op : Op)
    (h : (s.state = SessionState.closed ∨ s.state = SessionState.aborted) → s.queue = []) :
    ((Session.step s op).state = SessionState.closed ∨
        (Session.step s op).state = SessionState.aborted) →
      (Session.step s op).queue = [] := by
  obtain ⟨st, q, f, n, b, te, sts⟩ := s
  cases op with
  | send sz =>
    cases st with
    | idle =>
      simp only [Session.step, Session.send]
      split <;> simp_all
    | active =>
      simp only [Session.step, Session.send]
      split <;> simp_all
    | draining => simp_all [Session.step, Session.send]
    | closed => simp_all [Session.step, Session.send]
    | aborted => simp_all [Session.step, Session.send]
  | drainOk c =>
    cases st with
    | active => rcases q with _ | ⟨r, rest⟩ <;> simp_all [Session.step, Session.drainOk]
    | draining =>
      rcases q with _ | ⟨r, rest⟩
      · simp_all [Session.step, Session.drainOk]
      · rcases rest with _ | ⟨r2, rest2⟩ <;> simp_all [Session.step, Session.drainOk]
    | idle => simp_all [Session.step, Session.drainOk]
    | closed => simp_all [Session.step, Session.drainOk]
    | aborted => simp_all [Session.step, Session.drainOk]
  | drainErr e =>
    cases st <;> rcases q with _ | ⟨r, rest⟩ <;> simp_all [Session.step, Session.drainErr]
  | fin =>
    cases st <;> by_cases hq : q.isEmpty <;>
      simp_all [Session.step, Session.fin, List.isEmpty_iff]
  | stop =>
    cases st <;> simp_all [Session.step, Session.stop]

theorem inv_step (s : Session) (op : Op) (h : s.inv) : (Session.step s op).inv := by
  rcases step_ledger s op with ⟨hL, hn⟩ | ⟨hL, hn⟩
  · exact inv_of_ledger_eq s _ hL hn (step_terminal_queue s op h.2.2) h
  · exact inv_extend s _ hL hn (step_terminal_queue s op h.2.2) h

theorem inv_run (ops : List Op) (s : Session) (h : s.inv) : (Session.run s ops).inv := by
  induction ops generalizing s with
  | nil => exact h
  | cons op ops ih => exact ih (Session.step s op) (inv_step s op h)

theorem inv_init (burst : Nat) : (Session.init burst).inv := by
  refine ⟨List.Pairwise.nil, ?_, fun _ => rfl⟩
  intro i
  simp [Session.init, Session.ledger, Session.cbIds, Session.queueIds]

/-- C1: send order is FIFO: in any run of the Session model, the sequence of
header ids the receiver-side handler observes is strictly increasing in
program (enqueue) order, so for two Sends enqueued s1 before s2 the receiver
observes s1's header strictly before s2's. -/
theorem send_fifo_order (burst : Nat) (ops : List Op) :
    List.Pairwise (· < ·) ((Session.run (Session.init burst) ops).observed) := by
  obtain ⟨hpw, -, -⟩ := inv_run ops (Session.init burst) (inv_init burst)
  have h1 : List.Sublist ((Session.run (Session.init burst) ops).observed)
      ((Session.run (Session.init burst) ops).cbIds) := by
    simp only [Session.observed, Session.cbIds]
    exact (List.filter_sublist _).map _
  have h2 : List.Sublist ((Session.run (Session.init burst) ops).cbIds)
      ((Session.run (Session.init burst) ops).ledger) :=
    List.sublist_append_left _ _
  exact hpw.sublist (h1.trans h2)

theorem stop_fired_cases (s : Session) :
    ∀ p ∈ (Session.stop s).2.fired, p ∈ s.fired ∨ p.2 = CbStatus.cancelled := by
  obtain ⟨st, q, f, n, b, te, sts⟩ := s
  cases st with
  | closed => intro p hp; exact Or.inl hp
  | aborted => intro p hp; exact Or.inl hp
  | idle =>
    intro p hp
    simp only [Session.stop] at hp
    rcases List.mem_append.mp hp with hmem | hmem
    · exact Or.inl hmem
    · obtain ⟨r, hr, rfl⟩ := List.mem_map.mp hmem
      exact Or.inr rfl
  | active =>
    intro p hp
    simp only [Session.stop] at hp
    rcases List.mem_append.mp hp with hmem | hmem
    · exact Or.inl hmem
    · obtain ⟨r, hr, rfl⟩ := List.mem_map.mp hmem
      exact Or.inr rfl
  | draining =>
    intro p hp
    simp only [Session.stop] at hp
    rcases List.mem_append.mp hp with hmem | hmem
    · exact Or.inl hmem
    · obtain ⟨r, hr, rfl⟩ := List.mem_map.mp hmem
      exact Or.inr rfl

/-- C2: a Send Request's callback never fires twice; once the Session reaches
a terminal state every issued request's callback has fired exactly once; and
any callbacks `Stop` delivers beyond those already fired carry the
distinguished cancellation status. -/
theorem callbacks_exactly_once (burst : Nat) (ops : List Op) :
    (∀ i, (Session.run (Session.init burst) ops).cbIds.count i ≤ 1) ∧
      (((Session.run (Session.init burst) ops).state = SessionState.closed ∨
          (Session.run (Session.init burst) ops).state = SessionState.aborted) →
        ∀ i, i < (Session.run (Session.init burst) ops).nextId →
          (Session.run (Session.init burst) ops).cbIds.count i = 1) ∧
      (∀ p ∈ (Session.stop (Session.run (Session.init burst) ops)).2.fired,
        p ∈ (Session.run (Session.init burst) ops).fired ∨
          p.2 = CbStatus.cancelled) := by
  obtain ⟨hpw, hmem, hterm⟩ := inv_run ops (Session.init burst) (inv_init burst)
  have hnd : (Session.run (Session.init burst) ops).ledger.Nodup :=
    hpw.imp (fun hab => Nat.ne_of_lt hab)
  have hndcb : (Session.run (Session.init burst) ops).cbIds.Nodup :=
    List.Nodup.of_append_left hnd
  refine ⟨fun i => List.nodup_iff_count_le_one.mp hndcb i, ?_,
    stop_fired_cases (Session.run (Session.init burst) ops)⟩
  intro hterm2 i hi
  have hq : (Session.run (Session.init burst) ops).queue = [] := hterm hterm2
  have hledg : (Session.run (Session.init burst) ops).ledger =
      (Session.run (Session.init burst) ops).cbIds := by
    simp [Session.ledger, Session.queueIds, hq]
  have hmem2 : i ∈ (Session.run (Session.init burst) ops).cbIds := by
    rw [← hledg]
    exact (hmem i).mpr hi
  exact List.count_eq_one_of_mem hndcb hmem2

/-- Witness for C2: after two Sends and a Stop the Session is terminal and
the first request's callback fired exactly once. -/
theorem callbacks_exactly_once_witness :
    (Session.run (Session.init 4) [Op.send 5, Op.send 3, Op.stop]).cbIds.count 0 = 1 :=
  (callbacks_exactly_once 4 [Op.send 5, Op.send 3, Op.stop]).2.1 (by decide) 0 (by decide)

/-- C5: `Send` on a Session in a terminal state (Draining, Closed or Aborted)
returns the terminal-state rejection immediately and leaves the Session —
its state and its queue — unchanged; the request is not silently dropped. -/
theorem send_terminal_rejected (s : Session) (sz : Nat)
    (h : s.state = SessionState.draining ∨ s.state = SessionState.closed ∨
      s.state = SessionState.aborted) :
    Session.send s sz = (SendOutcome.rejected, s) := by
  obtain ⟨st, q, f, n, b, te, sts⟩ := s
  cases st <;> simp_all [Session.send]

/-- Witness for C5: `Send` on an Aborted (stopped) Session is rejected with
the Session unchanged. -/
theorem send_terminal_rejected_witness :
    Session.send (Session.run (Session.init 2) [Op.send 1, Op.stop]) 9 =
      (SendOutcome.rejected, Session.run (Session.init 2) [Op.send 1, Op.stop]) :=
  send_terminal_rejected (Session.run (Session.init 2) [Op.send 1, Op.stop]) 9 (by decide)

/-- C6: a write failure aborts the Session, fails the in-progress request's
callback with the underlying I/O error and fails every still-queued request
with that same error — none dropped, none reported as succeeded — and the
error is stored as the terminal status. -/
theorem write_error_fails_all (s : Session) (e : Nat) (r : SendReq) (rest : List SendReq)
    (hq : s.queue = r :: rest)
    (hst : s.state = SessionState.active ∨ s.state = SessionState.draining) :
    (Session.drainErr s e).state = SessionState.aborted ∧
      (Session.drainErr s e).queue = [] ∧
      (Session.drainErr s e).fired =
        s.fired ++ (r :: rest).map (fun q => (q.id, CbStatus.ioErr e)) ∧
      (Session.drainErr s e).termErr = some (CbStatus.ioErr e) := by
  obtain ⟨st, q, f, n, b, te, sts⟩ := s
  cases st <;> simp_all [Session.drainErr]

/-- Witness for C6: an I/O error with two queued requests aborts the Session
and fails both callbacks with that error. -/
theorem write_error_fails_all_witness :
    (Session.drainErr (Session.run (Session.init 4) [Op.send 2, Op.send 3]) 7).state =
        SessionState.aborted ∧
      (Session.drainErr (Session.run (Session.init 4) [Op.send 2, Op.send 3]) 7).queue = [] ∧
      (Session.drainErr (Session.run (Session.init 4) [Op.send 2, Op.send 3]) 7).fired =
        (Session.run (Session.init 4) [Op.send 2, Op.send 3]).fired ++
          (⟨0, 2⟩ :: [⟨1, 3⟩] : List SendReq).map (fun q => (q.id, CbStatus.ioErr 7)) ∧
      (Session.drainErr (Session.run (Session.init 4) [Op.send 2, Op.send 3]) 7).termErr =
        some (CbStatus.ioErr 7) :=
  write_error_fails_all (Session.run (Session.init 4) [Op.send 2, Op.send 3]) 7
    ⟨0, 2⟩ [⟨1, 3⟩] (by decide) (by decide)

/-- C7: `Stop` and `Fin` are idempotent after termination: on a Session
already Closed or Aborted both return the stored terminal status and leave
the Session — hence also its callback log — completely unchanged. -/
theorem stop_fin_idempotent (s : Session)
    (h : s.state = SessionState.closed ∨ s.state = SessionState.aborted) :
    Session.stop s = (s.termErr, s) ∧ Session.fin s = (s.termErr, s) := by
  obtain ⟨st, q, f, n, b, te, sts⟩ := s
  cases st <;> simp_all [Session.stop, Session.fin]

/-- Witness for C7: repeated `Stop`/`Fin` on a stopped Session return the
stored cancellation status and change nothing. -/
theorem stop_fin_idempotent_witness :
    Session.stop (Session.run (Session.init 3) [Op.send 1, Op.stop]) =
        ((Session.run (Session.init 3) [Op.send 1, Op.stop]).termErr,
          Session.run (Session.init 3) [Op.send 1, Op.stop]) ∧
      Session.fin (Session.run (Session.init 3) [Op.send 1, Op.stop]) =
        ((Session.run (Session.init 3) [Op.send 1, Op.stop]).termErr,
          Session.run (Session.init 3) [Op.send 1, Op.stop]) :=
  stop_fin_idempotent (Session.run (Session.init 3) [Op.send 1, Op.stop]) (by decide)

theorem statsLe_refl (a : Stats) : Stats.le a a := by
  unfold Stats.le
  omega

theorem statsLe_trans {a b c : Stats} (h1 : Stats.le a b) (h2 : Stats.le b c) :
    Stats.le a c := by
  unfold Stats.le at h1 h2 ⊢
  omega

theorem step_stats_le (s : Session) (op : Op) :
    Stats.le s.stats (Session.step s op).stats := by
  obtain ⟨st, q, f, n, b, te, sts⟩ := s
  cases op with
  | send sz =>
    cases st <;> simp only [Session.step, Session.send] <;> (try split) <;>
      simp [Stats.le]
  | drainOk c =>
    cases st <;> rcases q with _ | ⟨r, rest⟩ <;>
      simp [Session.step, Session.drainOk, Stats.le]
  | drainErr e =>
    cases st <;> rcases q with _ | ⟨r, rest⟩ <;>
      simp [Session.step, Session.drainErr, Stats.le]
  | fin =>
    cases st <;> simp only [Session.step, Session.fin] <;> (try split) <;>
      simp [Stats.le]
  | stop =>
    cases st <;> simp [Session.step, Session.stop, Stats.le]

/-- C8: the stats counters (bytes sent, compressed bytes sent, object count)
are monotonically non-decreasing: no sequence of Session events ever
decreases any of them, so any two successive snapshots are ordered
pointwise. -/
theorem stats_monotone (s : Session) (ops : List Op) :
    Stats.le s.stats (Session.run s ops).stats := by
  induction ops generalizing s with
  | nil => exact statsLe_refl _
  | cons op ops ih => exact statsLe_trans (step_stats_le s op) (ih (Session.step s op))

/-- C9: on an Active Session, `Send` blocks exactly when the queue already
holds burst-many requests; a blocked `Send` leaves the Session unchanged; and
after the sender loop drains one request the next `Send` proceeds
(enqueues). -/
theorem burst_backpressure (s : Session) (sz sz2 c : Nat)
    (hact : s.state = SessionState.active) :
    ((Session.send s sz).1 = SendOutcome.wouldBlock ↔ s.burst ≤ s.queue.length) ∧
      ((Session.send s sz).1 = SendOutcome.wouldBlock → (Session.send s sz).2 = s) ∧
      (s.queue.length = s.burst → s.queue ≠ [] →
        (Session.send (Session.drainOk s c) sz2).1 = SendOutcome.enqueued) := by
  obtain ⟨st, q, f, n, b, te, sts⟩ := s
  cases st with
  | active =>
    refine ⟨?_, ?_, ?_⟩
    · by_cases hlen : q.length < b <;> simp [Session.send, hlen] <;> omega
    · by_cases hlen : q.length < b <;> simp [Session.send, hlen]
    · intro hfull hne
      rcases q with _ | ⟨r, rest⟩
      · exact absurd rfl hne
      · have hlt : rest.length < b := by
          simp only [List.length_cons] at hfull
          omega
        simp [Session.drainOk, Session.send, hlt]
  | idle => simp at hact
  | draining => simp at hact
  | closed => simp at hact
  | aborted => simp at hact

/-- Witness for C9: with burst 1 and one queued request a second `Send`
blocks; after one drain step it proceeds. -/
theorem burst_backpressure_witness :
    (Session.send (Session.run (Session.init 1) [Op.send 9]) 5).1 =
        SendOutcome.wouldBlock ∧
      (Session.send (Session.drainOk (Session.run (Session.init 1) [Op.send 9]) 0) 5).1 =
        SendOutcome.enqueued :=
  ⟨((burst_backpressure (Session.run (Session.init 1) [Op.send 9]) 5 5 0
        (by decide)).1).mpr (by decide),
    (burst_backpressure (Session.run (Session.init 1) [Op.send 9]) 5 5 0
        (by decide)).2.2 (by decide) (by decide)⟩

end Transport
